import Mathlib

/-!
Shallow embedding of the loan amortization engine in
`backend/loan_calculator.py` (class `LoanCalculator`).

Modelling choices:
* Python `Decimal` values are modelled as exact rationals (`ℚ`); the code's
  explicit `quantize(Decimal('0.01'), rounding=ROUND_HALF_UP)` calls are
  modelled by `round2` below.  (Python `Decimal` division and power round to
  28 significant digits; every claim examined here is insensitive to that
  difference, and the quantization points are reproduced exactly.)
* `datetime` dates are modelled by a year/month/day record.  `replace`
  validates the day against the target month and raises `ValueError` when it
  does not fit, so the date-advance function returns `Option Date`;
  `timedelta` addition always succeeds.  An exception raised mid-loop
  discards the whole schedule, so the generator returns
  `Option (List ScheduleEntry)` with `none` for "raises".
* The extra-payment dict built from the input list (later entries overwrite
  earlier ones) is modelled by a last-occurrence lookup; the holiday set of
  inclusive ranges by a membership test.
* `loan_type` is behaviorally inert in the source and is omitted from the
  record.  The field `debt_to_income_percent` models the source's
  debt-to-income percentage field.
-/

/-- Payment frequencies accepted by `LoanCalculator.PAYMENT_FREQUENCIES`.
An unknown frequency string raises `KeyError` in the constructor, before any
of the functions modelled here run, so the embedding uses the valid set. -/
inductive PaymentFrequency where
  | monthly
  | biWeekly
  | weekly
deriving DecidableEq

/-- A calendar date (`datetime` year/month/day). -/
structure Date where
  year : ℤ
  month : ℕ
  day : ℕ
deriving DecidableEq

/-- Gregorian leap-year rule used by `datetime`/`calendar`. -/
def isLeapYear (y : ℤ) : Bool :=
  y % 4 = 0 && (y % 100 ≠ 0 || y % 400 = 0)

/-- Number of days in a month, as `datetime` validates them. -/
def daysInMonth (y : ℤ) (m : ℕ) : ℕ :=
  if m = 2 then (if isLeapYear y then 29 else 28)
  else if m = 4 ∨ m = 6 ∨ m = 9 ∨ m = 11 then 30
  else 31

/-- Successor day (used to model `timedelta(days=n)`). -/
def Date.nextDay (d : Date) : Date :=
  if d.day < daysInMonth d.year d.month then ⟨d.year, d.month, d.day + 1⟩
  else if d.month < 12 then ⟨d.year, d.month + 1, 1⟩
  else ⟨d.year + 1, 1, 1⟩

/-- `d + timedelta(days=n)`. -/
def Date.addDays (d : Date) : ℕ → Date
  | 0 => d
  | n + 1 => (Date.addDays d n).nextDay

/-- `LoanCalculator.__init__` inputs that the claims depend on.
Monetary inputs are `Decimal`-converted in the source, hence `ℚ` here. -/
structure LoanTerms where
  principal : ℚ
  annual_rate : ℚ
  tenure_months : ℕ
  payment_frequency : PaymentFrequency
  start_date : Date
  down_payment : ℚ
  fees : List (String × ℚ)
deriving DecidableEq

/-- `PAYMENT_FREQUENCIES` lookup. -/
def payments_per_year : PaymentFrequency → ℕ
  | .monthly => 12
  | .biWeekly => 26
  | .weekly => 52

/-- `_calculate_total_payments`: monthly uses the tenure directly; the other
frequencies truncate `tenure_months * payments_per_year / 12` to an integer
(`int(...)` on a non-negative value is floor division). -/
def total_payments (t : LoanTerms) : ℕ :=
  match t.payment_frequency with
  | .monthly => t.tenure_months
  | .biWeekly => t.tenure_months * 26 / 12
  | .weekly => t.tenure_months * 52 / 12

/-- `period_rate = annual_rate / 100 / payments_per_year`. -/
def period_rate (t : LoanTerms) : ℚ :=
  t.annual_rate / 100 / (payments_per_year t.payment_frequency : ℚ)

/-- `net_principal = principal - down_payment`. -/
def net_principal (t : LoanTerms) : ℚ :=
  t.principal - t.down_payment

/-- `x.quantize(Decimal('0.01'), rounding=ROUND_HALF_UP)`: round to two
decimal places, ties away from zero. -/
def round2 (x : ℚ) : ℚ :=
  if 0 ≤ x then (⌊x * 100 + 1 / 2⌋ : ℚ) / 100
  else -((⌊-x * 100 + 1 / 2⌋ : ℚ) / 100)

/-- The unquantized annuity value
`net_principal * r * (1+r)^n / ((1+r)^n - 1)` from `calculate_payment`. -/
def annuity_raw (t : LoanTerms) : ℚ :=
  net_principal t * period_rate t * (1 + period_rate t) ^ total_payments t /
    ((1 + period_rate t) ^ total_payments t - 1)

/-- `calculate_payment`: the zero-rate branch returns the plain quotient (no
`quantize` in the source); the annuity branch quantizes to two decimals. -/
def calculate_payment (t : LoanTerms) : ℚ :=
  if period_rate t = 0 then net_principal t / (total_payments t : ℚ)
  else round2 (annuity_raw t)

/-- The extra-payment dict: built by inserting list entries in order, so a
later entry for the same payment number overwrites an earlier one; lookup
defaults to `0`. -/
def extra_payment_map (eps : List (ℕ × ℚ)) (num : ℕ) : ℚ :=
  match eps.reverse.find? (fun p => p.1 == num) with
  | some p => p.2
  | none => 0

/-- The holiday set: union of the inclusive ranges
`range(start_payment, end_payment + 1)`. -/
def holiday_periods (phs : List (ℕ × ℕ)) (num : ℕ) : Bool :=
  phs.any (fun ph => decide (ph.1 ≤ num ∧ num ≤ ph.2))

/-- One row of the amortization schedule. -/
structure ScheduleEntry where
  payment_number : ℕ
  payment_date : Date
  payment : ℚ
  principal : ℚ
  interest : ℚ
  extra_payment : ℚ
  balance : ℚ
  is_holiday : Bool
deriving DecidableEq

/-- `_get_next_payment_date`: monthly advancement replaces the month field
directly (December rolls the year), which `datetime.replace` rejects when the
current day does not exist in the target month; the other frequencies add a
fixed number of days and always succeed. -/
def get_next_payment_date (f : PaymentFrequency) (d : Date) : Option Date :=
  match f with
  | .monthly =>
      if d.month = 12 then some ⟨d.year + 1, 1, d.day⟩
      else if d.day ≤ daysInMonth d.year (d.month + 1) then
        some ⟨d.year, d.month + 1, d.day⟩
      else none
  | .biWeekly => some (d.addDays 14)
  | .weekly => some (d.addDays 7)

/-- The body of one non-holiday iteration of the schedule loop: interest
accrual, principal split, extra-payment lookup, the overpayment clamp, and
the balance update floored at zero (lines 130-159 of the source). -/
def schedule_step (t : LoanTerms) (rp : ℚ) (eps : List (ℕ × ℚ))
    (num : ℕ) (balance : ℚ) (d : Date) : ScheduleEntry :=
  let interest := round2 (balance * period_rate t)
  let principal0 := rp - interest
  let extra0 := extra_payment_map eps num
  let pe :=
    if principal0 + extra0 > balance then
      let p := if extra0 < balance then balance - extra0 else balance
      (p, if p < balance then balance - p else 0)
    else (principal0, extra0)
  let new_balance := max (balance - (pe.1 + pe.2)) 0
  ⟨num, d, rp, pe.1, interest, pe.2, new_balance, false⟩

/-- The loop of `generate_amortization_schedule`, structurally recursive on
the number of remaining payment numbers; the accumulator models the
`schedule` list that the source appends to.  A failing date advance (a
raised `ValueError`) aborts the whole call, discarding all rows built so
far. -/
def schedule_loop (t : LoanTerms) (rp : ℚ) (eps : List (ℕ × ℚ))
    (phs : List (ℕ × ℕ)) :
    ℕ → ℕ → ℚ → Date → List ScheduleEntry → Option (List ScheduleEntry)
  | 0, _, _, _, acc => some acc
  | fuel + 1, num, balance, d, acc =>
      if balance ≤ 0 then some acc
      else if holiday_periods phs num then
        match get_next_payment_date t.payment_frequency d with
        | none => none
        | some d2 =>
            schedule_loop t rp eps phs fuel (num + 1) balance d2
              (acc ++ [⟨num, d, 0, 0, 0, 0, balance, true⟩])
      else
        let e := schedule_step t rp eps num balance d
        match get_next_payment_date t.payment_frequency d with
        | none => none
        | some d2 =>
            schedule_loop t rp eps phs fuel (num + 1) e.balance d2 (acc ++ [e])

/-- `generate_amortization_schedule` (the schedule list starts empty). -/
def generate_amortization_schedule (t : LoanTerms) (eps : List (ℕ × ℚ))
    (phs : List (ℕ × ℕ)) : Option (List ScheduleEntry) :=
  schedule_loop t (calculate_payment t) eps phs (total_payments t) 1
    (net_principal t) t.start_date []

/-- The aggregate fields of `calculate_summary` that the claims mention. -/
structure LoanSummary where
  regular_payment : ℚ
  total_interest : ℚ
  total_extra_payments : ℚ
  total_fees : ℚ
  total_cost : ℚ
  total_paid : ℚ
  total_principal : ℚ
deriving DecidableEq

/-- `calculate_summary`: pure reductions over the generated schedule plus the
fee map (`none` when schedule generation raises). -/
def calculate_summary (t : LoanTerms) (eps : List (ℕ × ℚ))
    (phs : List (ℕ × ℕ)) : Option LoanSummary :=
  (generate_amortization_schedule t eps phs).map fun schedule =>
    let total_interest := (schedule.map ScheduleEntry.interest).sum
    let total_extra := (schedule.map ScheduleEntry.extra_payment).sum
    let total_fees := (t.fees.map Prod.snd).sum
    let total_paid :=
      ((schedule.filter (fun p => !p.is_holiday)).map
        (fun p => p.payment + p.extra_payment)).sum
    { regular_payment := calculate_payment t
      total_interest := total_interest
      total_extra_payments := total_extra
      total_fees := total_fees
      total_cost := net_principal t + total_interest + total_fees
      total_paid := total_paid
      total_principal := net_principal t }

/-- `calculate_affordability` result record; `debt_to_income_percent` is the
source's debt-to-income percentage. -/
structure AffordabilityResult where
  monthly_payment_equivalent : ℚ
  monthly_income : ℚ
  debt_to_income_percent : ℚ
  is_affordable : Bool
  comfort_level : String
  recommended_max_payment : ℚ
deriving DecidableEq

/-- `calculate_affordability`. -/
def calculate_affordability (t : LoanTerms) (monthly_income : ℚ) :
    AffordabilityResult :=
  let regular_payment := calculate_payment t
  let monthly_payment :=
    match t.payment_frequency with
    | .monthly => regular_payment
    | .biWeekly => regular_payment * 26 / 12
    | .weekly => regular_payment * 52 / 12
  let dti := if monthly_income > 0 then monthly_payment / monthly_income * 100
             else 0
  { monthly_payment_equivalent := monthly_payment
    monthly_income := monthly_income
    debt_to_income_percent := dti
    is_affordable := decide (dti ≤ 43)
    comfort_level :=
      if dti ≤ 28 then "comfortable"
      else if dti ≤ 36 then "manageable"
      else if dti ≤ 43 then "stretched"
      else "risky"
    recommended_max_payment := monthly_income * (28 / 100) }

/-! ### Named predicates and concrete inputs used by the claims -/

/-- A schedule entry whose remaining balance is non-negative. -/
def nonneg_balance (e : ScheduleEntry) : Prop := 0 ≤ e.balance

/-- The second balance does not exceed the first (non-increasing step). -/
def step_down (a b : ℚ) : Prop := b ≤ a

/-- The earlier of two consecutive entries still carries a positive balance
(so no entry ever follows an entry whose balance has reached zero). -/
def pos_before_next (a _b : ScheduleEntry) : Prop := 0 < a.balance

/-- A holiday entry has every monetary field zero. -/
def holiday_zeroed (e : ScheduleEntry) : Prop :=
  e.is_holiday = true →
    e.payment = 0 ∧ e.principal = 0 ∧ e.interest = 0 ∧ e.extra_payment = 0

/-- A holiday entry carries its predecessor's balance forward unchanged. -/
def holiday_keeps_balance (a b : ScheduleEntry) : Prop :=
  b.is_holiday = true → b.balance = a.balance

/-- The holiday flag of an entry agrees with membership of its payment
number in the precomputed holiday set. -/
def holiday_flag_matches (phs : List (ℕ × ℕ)) (e : ScheduleEntry) : Prop :=
  e.is_holiday = holiday_periods phs e.payment_number

/-- A pseudo-entry representing the state before the first period: its
balance is the net principal entering the simulation. -/
def init_entry (t : LoanTerms) : ScheduleEntry :=
  ⟨0, t.start_date, 0, 0, 0, 0, net_principal t, false⟩

/-- Whether a summary satisfies total_interest = total_paid − net_principal. -/
def interest_matches_paid (s : LoanSummary) : Bool :=
  s.total_interest == s.total_paid - s.total_principal

/-- The discrepancy total_interest − (total_paid − net_principal). -/
def summary_gap (s : LoanSummary) : ℚ :=
  s.total_interest - (s.total_paid - s.total_principal)

/-- A small monthly loan: 1000 at 12% over 3 months. -/
def demo_terms : LoanTerms := ⟨1000, 12, 3, .monthly, ⟨2024, 1, 1⟩, 0, []⟩

/-- A monthly loan: 1000 at 12% over 12 months, used with an oversized extra
payment at period 1. -/
def clamp_demo_terms : LoanTerms := ⟨1000, 12, 12, .monthly, ⟨2024, 1, 1⟩, 0, []⟩

/-- An extra payment of 2000 at period 1, exceeding the whole principal. -/
def clamp_demo_extras : List (ℕ × ℚ) := [(1, 2000)]

/-- A monthly loan whose start date falls on January 31. -/
def jan31_terms : LoanTerms := ⟨1000, 12, 2, .monthly, ⟨2024, 1, 31⟩, 0, []⟩

/-- A zero-rate loan: 100 over 3 months, whose straight-line payment 100/3
is not representable in two decimal places. -/
def zero_rate_terms : LoanTerms := ⟨100, 0, 3, .monthly, ⟨2024, 1, 1⟩, 0, []⟩

/-- The spec's standard case: 500000 at 10% over 24 months, monthly. -/
def standard_case : LoanTerms := ⟨500000, 10, 24, .monthly, ⟨2024, 1, 1⟩, 0, []⟩

/-- A request implying 1201 periods (beyond the spec's example cap of 1200),
at zero rate so each payment is exactly 100. -/
def big_case : LoanTerms := ⟨120100, 0, 1201, .monthly, ⟨2024, 1, 1⟩, 0, []⟩

/-- A small weekly loan (13 derived payments). -/
def weekly_demo : LoanTerms := ⟨100, 0, 3, .weekly, ⟨2024, 1, 1⟩, 0, []⟩

/-- A monthly loan used together with a payment holiday at period 2. -/
def holiday_demo_terms : LoanTerms := ⟨1000, 12, 4, .monthly, ⟨2024, 1, 1⟩, 0, []⟩

/-- A single payment-holiday range covering period 2 only. -/
def holiday_demo_ranges : List (ℕ × ℕ) := [(2, 2)]

/-- Boolean equality of rationals through numerator and denominator. -/
def rat_eqb (a b : ℚ) : Bool :=
  decide (a.num = b.num) && decide (a.den = b.den)

/-- Boolean equality of dates field by field. -/
def date_eqb (a b : Date) : Bool :=
  decide (a.year = b.year) && a.month == b.month && a.day == b.day

/-- Boolean equality of schedule entries field by field. -/
def entry_eqb (a b : ScheduleEntry) : Bool :=
  a.payment_number == b.payment_number &&
  date_eqb a.payment_date b.payment_date &&
  rat_eqb a.payment b.payment &&
  rat_eqb a.principal b.principal &&
  rat_eqb a.interest b.interest &&
  rat_eqb a.extra_payment b.extra_payment &&
  rat_eqb a.balance b.balance &&
  (a.is_holiday == b.is_holiday)

/-- Boolean equality of schedules entry by entry. -/
def schedule_eqb : List ScheduleEntry → List ScheduleEntry → Bool
  | [], [] => true
  | x :: xs, y :: ys => entry_eqb x y && schedule_eqb xs ys
  | _, _ => false

/-- The 24-entry schedule computed by the generator at the standard case,
written out literally (payment 23072.46; final balance 0.08). -/
def standard_schedule : List ScheduleEntry := [
  ⟨1, ⟨2024, 1, 1⟩, 1153623 / 50, 1890579 / 100, 416667 / 100, 0, 48109421 / 100, false⟩,
  ⟨2, ⟨2024, 2, 1⟩, 1153623 / 50, 953167 / 50, 100228 / 25, 0, 46203087 / 100, false⟩,
  ⟨3, ⟨2024, 3, 1⟩, 1153623 / 50, 96111 / 5, 192513 / 50, 0, 44280867 / 100, false⟩,
  ⟨4, ⟨2024, 4, 1⟩, 1153623 / 50, 1938239 / 100, 369007 / 100, 0, 10585657 / 25, false⟩,
  ⟨5, ⟨2024, 5, 1⟩, 1153623 / 50, 1954391 / 100, 70571 / 20, 0, 40388237 / 100, false⟩,
  ⟨6, ⟨2024, 6, 1⟩, 1153623 / 50, 1970677 / 100, 336569 / 100, 0, 1920878 / 5, false⟩,
  ⟨7, ⟨2024, 7, 1⟩, 1153623 / 50, 19871, 160073 / 50, 0, 1821523 / 5, false⟩,
  ⟨8, ⟨2024, 8, 1⟩, 1153623 / 50, 2003659 / 100, 303587 / 100, 0, 34426801 / 100, false⟩,
  ⟨9, ⟨2024, 9, 1⟩, 1153623 / 50, 505089 / 25, 28689 / 10, 0, 6481289 / 20, false⟩,
  ⟨10, ⟨2024, 10, 1⟩, 1153623 / 50, 509298 / 25, 135027 / 50, 0, 30369253 / 100, false⟩,
  ⟨11, ⟨2024, 11, 1⟩, 1153623 / 50, 2054169 / 100, 253077 / 100, 0, 7078771 / 25, false⟩,
  ⟨12, ⟨2024, 12, 1⟩, 1153623 / 50, 2071287 / 100, 235959 / 100, 0, 26243797 / 100, false⟩,
  ⟨13, ⟨2025, 1, 1⟩, 1153623 / 50, 522137 / 25, 109349 / 50, 0, 24155249 / 100, false⟩,
  ⟨14, ⟨2025, 2, 1⟩, 1153623 / 50, 526488 / 25, 100647 / 50, 0, 22049297 / 100, false⟩,
  ⟨15, ⟨2025, 3, 1⟩, 1153623 / 50, 1061751 / 50, 45936 / 25, 0, 3985159 / 20, false⟩,
  ⟨16, ⟨2025, 4, 1⟩, 1153623 / 50, 1070599 / 50, 41512 / 25, 0, 17784597 / 100, false⟩,
  ⟨17, ⟨2025, 5, 1⟩, 1153623 / 50, 2159041 / 100, 29641 / 20, 0, 3906389 / 25, false⟩,
  ⟨18, ⟨2025, 6, 1⟩, 1153623 / 50, 2177033 / 100, 130213 / 100, 0, 13448523 / 100, false⟩,
  ⟨19, ⟨2025, 7, 1⟩, 1153623 / 50, 87807 / 4, 112071 / 100, 0, 2813337 / 25, false⟩,
  ⟨20, ⟨2025, 8, 1⟩, 1153623 / 50, 553367 / 25, 46889 / 50, 0, 451994 / 5, false⟩,
  ⟨21, ⟨2025, 9, 1⟩, 1153623 / 50, 1115957 / 50, 18833 / 25, 0, 3403983 / 50, false⟩,
  ⟨22, ⟨2025, 10, 1⟩, 1153623 / 50, 2250513 / 100, 56733 / 100, 0, 4557453 / 100, false⟩,
  ⟨23, ⟨2025, 11, 1⟩, 1153623 / 50, 2269267 / 100, 37979 / 100, 0, 1144093 / 50, false⟩,
  ⟨24, ⟨2025, 12, 1⟩, 1153623 / 50, 1144089 / 50, 4767 / 25, 0, 2 / 25, false⟩]

/-- The 3-entry schedule the generator produces for `demo_terms`
(payment 340.02; final balance 0.01). -/
def demo_schedule : List ScheduleEntry := [
  ⟨1, ⟨2024, 1, 1⟩, 17001 / 50, 16501 / 50, 10, 0, 33499 / 50, false⟩,
  ⟨2, ⟨2024, 2, 1⟩, 17001 / 50, 8333 / 25, 67 / 10, 0, 16833 / 50, false⟩,
  ⟨3, ⟨2024, 3, 1⟩, 17001 / 50, 6733 / 20, 337 / 100, 0, 1 / 100, false⟩]

/-- The 4-entry schedule the generator produces for `holiday_demo_terms`
with a payment holiday at period 2 (the holiday row freezes the balance). -/
def holiday_demo_schedule : List ScheduleEntry := [
  ⟨1, ⟨2024, 1, 1⟩, 6407 / 25, 6157 / 25, 10, 0, 18843 / 25, false⟩,
  ⟨2, ⟨2024, 2, 1⟩, 0, 0, 0, 0, 18843 / 25, true⟩,
  ⟨3, ⟨2024, 3, 1⟩, 6407 / 25, 12437 / 50, 377 / 50, 0, 25249 / 50, false⟩,
  ⟨4, ⟨2024, 4, 1⟩, 6407 / 25, 25123 / 100, 101 / 20, 0, 1015 / 4, false⟩]

/-! ### Helper lemmas -/

set_option maxRecDepth 40000

/-- Rounding to two decimals half-up is monotone on non-negative inputs. -/
theorem round2_mono {x y : ℚ} (hx : 0 ≤ x) (hxy : x ≤ y) :
    round2 x ≤ round2 y := by
  unfold round2
  rw [if_pos hx, if_pos (hx.trans hxy)]
  have h : (⌊x * 100 + 1 / 2⌋ : ℤ) ≤ ⌊y * 100 + 1 / 2⌋ :=
    Int.floor_mono (by linarith)
  have h2 : ((⌊x * 100 + 1 / 2⌋ : ℤ) : ℚ) ≤ ((⌊y * 100 + 1 / 2⌋ : ℤ) : ℚ) := by
    exact_mod_cast h
  linarith

/-- Rounding zero gives zero. -/
theorem round2_zero : round2 0 = 0 := by
  with_unfolding_all decide

/-- The per-period rate is non-negative when the annual rate is. -/
theorem period_rate_nonneg (t : LoanTerms) (h : 0 ≤ t.annual_rate) :
    0 ≤ period_rate t := by
  unfold period_rate
  have h1 : (0 : ℚ) ≤ t.annual_rate / 100 := by positivity
  positivity

/-- If every extra payment amount in the input list is non-negative, so is
every lookup in the extra-payment map. -/
theorem extra_map_nonneg {eps : List (ℕ × ℚ)}
    (h : eps.Forall (fun p => 0 ≤ p.2)) (num : ℕ) :
    0 ≤ extra_payment_map eps num := by
  unfold extra_payment_map
  cases hf : eps.reverse.find? (fun p => p.1 == num) with
  | none => exact le_refl 0
  | some p =>
      have hm : p ∈ eps.reverse := List.mem_of_find?_eq_some hf
      rw [List.mem_reverse] at hm
      exact List.forall_iff_forall_mem.mp h p hm

/-- The quantized interest on the full net principal never exceeds the
regular payment (for a positive net principal, a positive number of
payments, and a non-negative period rate). -/
theorem round2_interest_le_payment (t : LoanTerms)
    (hP : 0 < net_principal t) (hn : 0 < total_payments t)
    (hr : 0 ≤ period_rate t) :
    round2 (net_principal t * period_rate t) ≤ calculate_payment t := by
  unfold calculate_payment
  by_cases h0 : period_rate t = 0
  · rw [if_pos h0, h0, mul_zero, round2_zero]
    have hcast : (0 : ℚ) < (total_payments t : ℚ) := by exact_mod_cast hn
    positivity
  · rw [if_neg h0]
    have hrpos : 0 < period_rate t := lt_of_le_of_ne hr (Ne.symm h0)
    have hA : 1 < (1 + period_rate t) ^ total_payments t :=
      one_lt_pow₀ (by linarith) (by omega)
    have key : net_principal t * period_rate t ≤ annuity_raw t := by
      unfold annuity_raw
      rw [le_div_iff₀ (by linarith)]
      have hmul :
          net_principal t * period_rate t *
              ((1 + period_rate t) ^ total_payments t - 1) ≤
            net_principal t * period_rate t *
              (1 + period_rate t) ^ total_payments t := by
        apply mul_le_mul_of_nonneg_left (by linarith) (by positivity)
      linarith
    exact round2_mono (by positivity) key

/-- One non-holiday iteration of the loop, as a rewriting equation: with a
positive balance, a non-holiday period and a successful date advance, the
loop appends the row computed by `schedule_step` and continues on the new
balance. -/
theorem schedule_loop_step (t : LoanTerms) (rp : ℚ) (eps : List (ℕ × ℚ))
    (phs : List (ℕ × ℕ)) (fuel num : ℕ) (b : ℚ) (d : Date)
    (acc : List ScheduleEntry) (d2 : Date)
    (hb : ¬ b ≤ 0) (hhol : holiday_periods phs num = false)
    (hd : get_next_payment_date t.payment_frequency d = some d2) :
    schedule_loop t rp eps phs (fuel + 1) num b d acc =
      schedule_loop t rp eps phs fuel (num + 1)
        (schedule_step t rp eps num b d).balance d2
        (acc ++ [schedule_step t rp eps num b d]) := by
  rw [schedule_loop, if_neg hb, hhol]
  simp only [Bool.false_eq_true, if_false, hd]

/-- One holiday iteration of the loop, as a rewriting equation. -/
theorem schedule_loop_holiday_step (t : LoanTerms) (rp : ℚ)
    (eps : List (ℕ × ℚ)) (phs : List (ℕ × ℕ)) (fuel num : ℕ) (b : ℚ)
    (d : Date) (acc : List ScheduleEntry) (d2 : Date)
    (hb : ¬ b ≤ 0) (hhol : holiday_periods phs num = true)
    (hd : get_next_payment_date t.payment_frequency d = some d2) :
    schedule_loop t rp eps phs (fuel + 1) num b d acc =
      schedule_loop t rp eps phs fuel (num + 1) b d2
        (acc ++ [⟨num, d, 0, 0, 0, 0, b, true⟩]) := by
  rw [schedule_loop, if_neg hb, hhol]
  simp only [if_true, hd]

/-- A failing date advance in a non-holiday period aborts the loop. -/
theorem schedule_loop_step_none (t : LoanTerms) (rp : ℚ)
    (eps : List (ℕ × ℚ)) (phs : List (ℕ × ℕ)) (fuel num : ℕ) (b : ℚ)
    (d : Date) (acc : List ScheduleEntry)
    (hb : ¬ b ≤ 0) (hhol : holiday_periods phs num = false)
    (hd : get_next_payment_date t.payment_frequency d = none) :
    schedule_loop t rp eps phs (fuel + 1) num b d acc = none := by
  rw [schedule_loop, if_neg hb, hhol]
  simp only [Bool.false_eq_true, if_false, hd]

/-- A failing date advance in a holiday period aborts the loop. -/
theorem schedule_loop_holiday_none (t : LoanTerms) (rp : ℚ)
    (eps : List (ℕ × ℚ)) (phs : List (ℕ × ℕ)) (fuel num : ℕ) (b : ℚ)
    (d : Date) (acc : List ScheduleEntry)
    (hb : ¬ b ≤ 0) (hhol : holiday_periods phs num = true)
    (hd : get_next_payment_date t.payment_frequency d = none) :
    schedule_loop t rp eps phs (fuel + 1) num b d acc = none := by
  rw [schedule_loop, if_neg hb, hhol]
  simp only [if_true, hd]

/-- A non-positive balance stops the loop at once, returning the rows
accumulated so far. -/
theorem schedule_loop_stop (t : LoanTerms) (rp : ℚ) (eps : List (ℕ × ℚ))
    (phs : List (ℕ × ℕ)) (fuel num : ℕ) (b : ℚ) (d : Date)
    (acc : List ScheduleEntry) (hb : b ≤ 0) :
    schedule_loop t rp eps phs fuel num b d acc = some acc := by
  cases fuel with
  | zero => rw [schedule_loop]
  | succ fuel => rw [schedule_loop, if_pos hb]

/-- Running out of payment numbers stops the loop. -/
theorem schedule_loop_zero (t : LoanTerms) (rp : ℚ) (eps : List (ℕ × ℚ))
    (phs : List (ℕ × ℕ)) (num : ℕ) (b : ℚ) (d : Date)
    (acc : List ScheduleEntry) :
    schedule_loop t rp eps phs 0 num b d acc = some acc := by
  rw [schedule_loop]

/-- The accumulator is a pure prefix: running the loop from `acc` is running
it from the empty list and prepending `acc` to the result. -/
theorem schedule_loop_acc_append (t : LoanTerms) (rp : ℚ)
    (eps : List (ℕ × ℚ)) (phs : List (ℕ × ℕ)) :
    ∀ (fuel num : ℕ) (b : ℚ) (d : Date) (acc : List ScheduleEntry),
      schedule_loop t rp eps phs fuel num b d acc =
        (schedule_loop t rp eps phs fuel num b d []).map (acc ++ ·) := by
  intro fuel
  induction fuel with
  | zero =>
      intro num b d acc
      rw [schedule_loop_zero, schedule_loop_zero]
      simp
  | succ fuel ih =>
      intro num b d acc
      by_cases hb : b ≤ 0
      · rw [schedule_loop_stop t rp eps phs _ num b d acc hb,
          schedule_loop_stop t rp eps phs _ num b d [] hb]
        simp
      · by_cases hhol : holiday_periods phs num
        · cases hd : get_next_payment_date t.payment_frequency d with
          | none =>
              rw [schedule_loop_holiday_none t rp eps phs fuel num b d acc hb hhol hd,
                schedule_loop_holiday_none t rp eps phs fuel num b d [] hb hhol hd]
              rfl
          | some d2 =>
              have h1 := schedule_loop_holiday_step t rp eps phs fuel num b d acc d2 hb hhol hd
              have h2 := schedule_loop_holiday_step t rp eps phs fuel num b d [] d2 hb hhol hd
              have h3 := ih (num + 1) b d2
                (acc ++ [(⟨num, d, 0, 0, 0, 0, b, true⟩ : ScheduleEntry)])
              have h4 := ih (num + 1) b d2
                ([] ++ [(⟨num, d, 0, 0, 0, 0, b, true⟩ : ScheduleEntry)])
              rw [h1, h2, h3, h4]
              cases schedule_loop t rp eps phs fuel (num + 1) b d2 [] with
              | none => rfl
              | some rest => simp
        · have hhol2 : holiday_periods phs num = false := by
            simpa using hhol
          cases hd : get_next_payment_date t.payment_frequency d with
          | none =>
              rw [schedule_loop_step_none t rp eps phs fuel num b d acc hb hhol2 hd,
                schedule_loop_step_none t rp eps phs fuel num b d [] hb hhol2 hd]
              rfl
          | some d2 =>
              have h1 := schedule_loop_step t rp eps phs fuel num b d acc d2 hb hhol2 hd
              have h2 := schedule_loop_step t rp eps phs fuel num b d [] d2 hb hhol2 hd
              have h3 := ih (num + 1) (schedule_step t rp eps num b d).balance d2
                (acc ++ [schedule_step t rp eps num b d])
              have h4 := ih (num + 1) (schedule_step t rp eps num b d).balance d2
                ([] ++ [schedule_step t rp eps num b d])
              rw [h1, h2, h3, h4]
              cases schedule_loop t rp eps phs fuel (num + 1)
                  (schedule_step t rp eps num b d).balance d2 [] with
              | none => rfl
              | some rest => simp

/-- Soundness of the rational equality checker. -/
theorem rat_eqb_sound {a b : ℚ} (h : rat_eqb a b = true) : a = b := by
  unfold rat_eqb at h
  simp only [Bool.and_eq_true, decide_eq_true_eq] at h
  exact Rat.ext h.1 h.2

/-- Soundness of the date equality checker. -/
theorem date_eqb_sound {a b : Date} (h : date_eqb a b = true) : a = b := by
  unfold date_eqb at h
  simp only [Bool.and_eq_true, decide_eq_true_eq, beq_iff_eq] at h
  obtain ⟨⟨hy, hm⟩, hd⟩ := h
  cases a; cases b
  simp_all

/-- Soundness of the entry equality checker. -/
theorem entry_eqb_sound {a b : ScheduleEntry} (h : entry_eqb a b = true) :
    a = b := by
  unfold entry_eqb at h
  simp only [Bool.and_eq_true, beq_iff_eq] at h
  obtain ⟨⟨⟨⟨⟨⟨⟨hn, hd⟩, hp⟩, hpr⟩, hi⟩, he⟩, hb⟩, hh⟩ := h
  cases a; cases b
  simp only [ScheduleEntry.mk.injEq]
  exact ⟨hn, date_eqb_sound hd, rat_eqb_sound hp, rat_eqb_sound hpr,
    rat_eqb_sound hi, rat_eqb_sound he, rat_eqb_sound hb, hh⟩

/-- Soundness of the schedule equality checker. -/
theorem schedule_eqb_sound :
    ∀ {xs ys : List ScheduleEntry}, schedule_eqb xs ys = true → xs = ys := by
  intro xs
  induction xs with
  | nil =>
      intro ys h
      cases ys with
      | nil => rfl
      | cons y ys => simp [schedule_eqb] at h
  | cons x xs ih =>
      intro ys h
      cases ys with
      | nil => simp [schedule_eqb] at h
      | cons y ys =>
          unfold schedule_eqb at h
          simp only [Bool.and_eq_true] at h
          rw [entry_eqb_sound h.1, ih h.2]

/-- The generator at the standard case produces exactly the literal
schedule above. -/
theorem standard_schedule_eq :
    generate_amortization_schedule standard_case [] [] =
      some standard_schedule := by
  have hb : (generate_amortization_schedule standard_case [] []).map
      (fun s => schedule_eqb s standard_schedule) = some true := by
    with_unfolding_all decide
  cases hgen : generate_amortization_schedule standard_case [] [] with
  | none => rw [hgen] at hb; simp at hb
  | some s =>
      rw [hgen] at hb
      simp only [Option.map_some', Option.some.injEq] at hb
      rw [schedule_eqb_sound hb]

/-! ### Claim C1: the overpayment clamp -/

/-- C1 (counterexample). With net principal 1000 and an extra payment of
2000 ≥ the remaining balance at period 1, the emitted first entry carries
principal_component = 1000 (the prior balance) and extra_payment = 0 — not
principal_component = 0 and extra_payment = 1000 as the claim states. -/
theorem c1_counterexample :
    ((generate_amortization_schedule clamp_demo_terms clamp_demo_extras
        []).getD []).head?.map ScheduleEntry.principal = some 1000 ∧
    ((generate_amortization_schedule clamp_demo_terms clamp_demo_extras
        []).getD []).head?.map ScheduleEntry.extra_payment = some 0 ∧
    (1000 : ℚ) ≠ 0 := by
  refine ⟨?_, ?_, by norm_num⟩ <;> with_unfolding_all decide

/-- C1 (amended). In a non-holiday period whose principal + extra exceeds
the balance, and with a non-negative extra payment: if the extra alone is
≥ the balance, the emitted principal equals the prior balance and the
emitted extra is 0 (principal takes priority, the opposite split of the
original claim); otherwise principal = balance − extra and the extra is
kept as given.  In both cases the combined draw equals the prior balance
and the new balance is 0. -/
theorem c1_clamp_amended (t : LoanTerms) (rp : ℚ) (eps : List (ℕ × ℚ))
    (num : ℕ) (b : ℚ) (d : Date)
    (hext : 0 ≤ extra_payment_map eps num)
    (hover : rp - round2 (b * period_rate t) + extra_payment_map eps num > b) :
    (b ≤ extra_payment_map eps num →
      (schedule_step t rp eps num b d).principal = b ∧
      (schedule_step t rp eps num b d).extra_payment = 0) ∧
    (extra_payment_map eps num < b →
      (schedule_step t rp eps num b d).principal =
          b - extra_payment_map eps num ∧
      (schedule_step t rp eps num b d).extra_payment =
          extra_payment_map eps num) ∧
    (schedule_step t rp eps num b d).principal +
        (schedule_step t rp eps num b d).extra_payment = b ∧
    (schedule_step t rp eps num b d).balance = 0 := by
  unfold schedule_step
  dsimp only
  rw [if_pos hover]
  by_cases hlt : extra_payment_map eps num < b
  · rw [if_pos hlt]
    by_cases hpb : b - extra_payment_map eps num < b
    · rw [if_pos hpb]
      refine ⟨fun h => absurd h (not_le.mpr hlt), fun _ => ⟨rfl, by ring⟩, by ring, ?_⟩
      have hz : b - (b - extra_payment_map eps num +
          (b - (b - extra_payment_map eps num))) = 0 := by ring
      rw [hz, max_self]
    · have he0 : extra_payment_map eps num = 0 := by
        have h1 : extra_payment_map eps num ≤ 0 := by linarith [not_lt.mp hpb]
        linarith
      rw [if_neg hpb]
      refine ⟨fun h => ⟨by rw [he0, sub_zero], rfl⟩,
        fun _ => ⟨rfl, he0.symm⟩, by rw [he0]; ring, ?_⟩
      have hz : b - (b - extra_payment_map eps num + 0) = 0 := by rw [he0]; ring
      rw [hz, max_self]
  · rw [if_neg hlt, if_neg (lt_irrefl b)]
    refine ⟨fun _ => ⟨rfl, rfl⟩, fun h => absurd h hlt, by ring, ?_⟩
    have hz : b - (b + 0) = 0 := by ring
    rw [hz, max_self]

/-- C1 (witness). The amended clamp rule instantiated at the concrete
oversized extra payment of 2000 against a balance of 1000. -/
theorem c1_witness :
    (schedule_step clamp_demo_terms (calculate_payment clamp_demo_terms)
        clamp_demo_extras 1 1000 ⟨2024, 1, 1⟩).principal = 1000 ∧
    (schedule_step clamp_demo_terms (calculate_payment clamp_demo_terms)
        clamp_demo_extras 1 1000 ⟨2024, 1, 1⟩).extra_payment = 0 :=
  (c1_clamp_amended clamp_demo_terms (calculate_payment clamp_demo_terms)
      clamp_demo_extras 1 1000 ⟨2024, 1, 1⟩
      (by with_unfolding_all decide)
      (by with_unfolding_all decide)).1 (by with_unfolding_all decide)

/-! ### Claim C3: the monthly date advance raises -/

/-- C3 (code bug). For a well-formed monthly loan whose start date is
January 31, advancing the payment date replaces the month field with 2,
which `datetime.replace` rejects (no February 31): the date advance fails
and `generate_amortization_schedule` raises instead of returning a
schedule. -/
theorem c3_monthly_advance_raises :
    generate_amortization_schedule jan31_terms [] [] = none ∧
    get_next_payment_date .monthly ⟨2024, 1, 31⟩ = none := by
  constructor <;> with_unfolding_all decide

/-! ### Claim C4: quantization of calculate_payment -/

/-- C4 (counterexample). At principal 100, zero rate, 3 payments the code
returns 100/3 — not the two-decimal round-half-up of net_principal /
total_payments, and not a value with two decimal places at all. -/
theorem c4_counterexample :
    calculate_payment zero_rate_terms ≠
      round2 (net_principal zero_rate_terms /
        (total_payments zero_rate_terms : ℚ)) ∧
    (calculate_payment zero_rate_terms * 100).den ≠ 1 := by
  constructor <;> with_unfolding_all decide

/-- Multiplying a two-decimal rounded value by 100 yields an integer. -/
theorem round2_mul_hundred_den (x : ℚ) : (round2 x * 100).den = 1 := by
  unfold round2
  split_ifs with h
  · rw [div_mul_cancel₀ _ (by norm_num : (100 : ℚ) ≠ 0)]
    exact Rat.den_intCast _
  · rw [neg_mul, div_mul_cancel₀ _ (by norm_num : (100 : ℚ) ≠ 0)]
    rw [show -((⌊-x * 100 + 1 / 2⌋ : ℤ) : ℚ) = ((-⌊-x * 100 + 1 / 2⌋ : ℤ) : ℚ) by push_cast; ring]
    exact Rat.den_intCast _

/-- C4 (amended). When the period rate is non-zero, calculate_payment is the
two-decimal round-half-up quantization of the raw annuity value (so times
100 it is an integer); when the period rate is zero it is the plain
quotient net_principal / total_payments with no quantization applied. -/
theorem c4_amended (t : LoanTerms) :
    (period_rate t ≠ 0 →
      calculate_payment t = round2 (annuity_raw t) ∧
      (calculate_payment t * 100).den = 1) ∧
    (period_rate t = 0 →
      calculate_payment t = net_principal t / (total_payments t : ℚ)) := by
  constructor
  · intro h
    unfold calculate_payment
    rw [if_neg h]
    exact ⟨rfl, round2_mul_hundred_den _⟩
  · intro h
    unfold calculate_payment
    rw [if_pos h]

/-- C4 (witness). The amended statement instantiated at the 12%-rate loan:
the payment is the quantized annuity value and ×100 is an integer. -/
theorem c4_witness :
    calculate_payment clamp_demo_terms = round2 (annuity_raw clamp_demo_terms) ∧
    (calculate_payment clamp_demo_terms * 100).den = 1 :=
  (c4_amended clamp_demo_terms).1 (by with_unfolding_all decide)

/-! ### Claim C5: the summary identity at the standard case -/

/-- C5 (counterexample). At the spec's standard case (500000 at 10% over 24
monthly payments, nothing else), the aggregator does not satisfy
total_interest = total_paid − net_principal: the two sides are 53739.12 and
53739.04. -/
theorem c5_counterexample :
    (calculate_summary standard_case [] []).map interest_matches_paid =
      some false := by
  unfold calculate_summary
  rw [standard_schedule_eq]
  with_unfolding_all decide

/-- C5 (amended). At the standard case the identity fails by exactly the
residual balance of 0.08 that remains after the 24th scheduled payment:
total_interest = 53739.12, total_paid = 553739.04 (so total_paid −
net_principal = 53739.04), and the final entry's balance is 0.08, which is
precisely total_interest − (total_paid − net_principal). -/
theorem c5_amended :
    (calculate_summary standard_case [] []).map summary_gap = some (8 / 100) ∧
    ((generate_amortization_schedule standard_case [] []).getD
        []).getLast?.map ScheduleEntry.balance = some (8 / 100) ∧
    (calculate_summary standard_case [] []).map LoanSummary.total_interest =
      some (5373912 / 100) ∧
    (calculate_summary standard_case [] []).map LoanSummary.total_paid =
      some (55373904 / 100) := by
  refine ⟨?_, ?_, ?_, ?_⟩
  · unfold calculate_summary
    rw [standard_schedule_eq]
    simp only [Option.map_some', Option.some.injEq]
    exact rat_eqb_sound (by with_unfolding_all decide)
  · rw [standard_schedule_eq]
    with_unfolding_all decide
  · unfold calculate_summary
    rw [standard_schedule_eq]
    simp only [Option.map_some', Option.some.injEq]
    exact rat_eqb_sound (by with_unfolding_all decide)
  · unfold calculate_summary
    rw [standard_schedule_eq]
    simp only [Option.map_some', Option.some.injEq]
    exact rat_eqb_sound (by with_unfolding_all decide)

/-! ### Claims C2, C7, C8: loop invariants -/

/-- Inversion of a successful holiday iteration started from the empty
accumulator: the result is the holiday row consed onto a run of the tail. -/
theorem schedule_loop_cons_holiday {t : LoanTerms} {rp : ℚ}
    {eps : List (ℕ × ℚ)} {phs : List (ℕ × ℕ)} {fuel num : ℕ} {b : ℚ}
    {d : Date} {s : List ScheduleEntry} {d2 : Date}
    (hb : ¬ b ≤ 0) (hhol : holiday_periods phs num = true)
    (hd : get_next_payment_date t.payment_frequency d = some d2)
    (hs : schedule_loop t rp eps phs (fuel + 1) num b d [] = some s) :
    ∃ rest, schedule_loop t rp eps phs fuel (num + 1) b d2 [] = some rest ∧
      s = ⟨num, d, 0, 0, 0, 0, b, true⟩ :: rest := by
  rw [schedule_loop_holiday_step t rp eps phs fuel num b d [] d2 hb hhol hd,
    schedule_loop_acc_append] at hs
  cases hrec : schedule_loop t rp eps phs fuel (num + 1) b d2 [] with
  | none => rw [hrec] at hs; simp at hs
  | some rest =>
      rw [hrec] at hs
      simp only [Option.map_some', Option.some.injEq] at hs
      exact ⟨rest, rfl, by rw [← hs]; simp⟩

/-- Inversion of a successful non-holiday iteration started from the empty
accumulator: the result is the computed row consed onto a run of the tail
from the updated balance. -/
theorem schedule_loop_cons_step {t : LoanTerms} {rp : ℚ}
    {eps : List (ℕ × ℚ)} {phs : List (ℕ × ℕ)} {fuel num : ℕ} {b : ℚ}
    {d : Date} {s : List ScheduleEntry} {d2 : Date}
    (hb : ¬ b ≤ 0) (hhol : holiday_periods phs num = false)
    (hd : get_next_payment_date t.payment_frequency d = some d2)
    (hs : schedule_loop t rp eps phs (fuel + 1) num b d [] = some s) :
    ∃ rest, schedule_loop t rp eps phs fuel (num + 1)
        (schedule_step t rp eps num b d).balance d2 [] = some rest ∧
      s = schedule_step t rp eps num b d :: rest := by
  rw [schedule_loop_step t rp eps phs fuel num b d [] d2 hb hhol hd,
    schedule_loop_acc_append] at hs
  cases hrec : schedule_loop t rp eps phs fuel (num + 1)
      (schedule_step t rp eps num b d).balance d2 [] with
  | none => rw [hrec] at hs; simp at hs
  | some rest =>
      rw [hrec] at hs
      simp only [Option.map_some', Option.some.injEq] at hs
      exact ⟨rest, rfl, by rw [← hs]; simp⟩

/-- A successful run producing a non-empty schedule must have started from
a positive balance. -/
theorem schedule_loop_pos_of_ne_nil {t : LoanTerms} {rp : ℚ}
    {eps : List (ℕ × ℚ)} {phs : List (ℕ × ℕ)} {fuel num : ℕ} {b : ℚ}
    {d : Date} {s : List ScheduleEntry}
    (hs : schedule_loop t rp eps phs fuel num b d [] = some s)
    (hne : s ≠ []) : 0 < b := by
  by_contra hcon
  push_neg at hcon
  rw [schedule_loop_stop t rp eps phs fuel num b d [] hcon] at hs
  cases hs
  exact hne rfl

/-- The balance emitted by a non-holiday step stays within [0, b] when the
entering balance b is positive and bounded by a principal B whose quantized
per-period interest does not exceed the regular payment. -/
theorem schedule_step_balance_bounds (t : LoanTerms) (rp : ℚ)
    (eps : List (ℕ × ℚ)) (num : ℕ) (b B : ℚ) (d : Date)
    (hb0 : 0 < b) (hbB : b ≤ B) (hr : 0 ≤ period_rate t)
    (he : 0 ≤ extra_payment_map eps num)
    (hpay : round2 (B * period_rate t) ≤ rp) :
    0 ≤ (schedule_step t rp eps num b d).balance ∧
    (schedule_step t rp eps num b d).balance ≤ b := by
  have hint : round2 (b * period_rate t) ≤ rp := by
    calc round2 (b * period_rate t)
        ≤ round2 (B * period_rate t) :=
          round2_mono (mul_nonneg hb0.le hr)
            (mul_le_mul_of_nonneg_right hbB hr)
      _ ≤ rp := hpay
  have key : 0 ≤ (schedule_step t rp eps num b d).principal +
      (schedule_step t rp eps num b d).extra_payment := by
    unfold schedule_step
    dsimp only
    split_ifs with h1 h2 h3 h4 <;> dsimp only <;> linarith
  have hbal : (schedule_step t rp eps num b d).balance =
      max (b - ((schedule_step t rp eps num b d).principal +
        (schedule_step t rp eps num b d).extra_payment)) 0 := rfl
  rw [hbal]
  exact ⟨le_max_right _ _, max_le (by linarith) hb0.le⟩

/-- The generator at `demo_terms` produces exactly `demo_schedule`. -/
theorem demo_schedule_eq :
    generate_amortization_schedule demo_terms [] [] = some demo_schedule := by
  have hb : (generate_amortization_schedule demo_terms [] []).map
      (fun s => schedule_eqb s demo_schedule) = some true := by
    with_unfolding_all decide
  cases hgen : generate_amortization_schedule demo_terms [] [] with
  | none => rw [hgen] at hb; simp at hb
  | some s =>
      rw [hgen] at hb
      simp only [Option.map_some', Option.some.injEq] at hb
      rw [schedule_eqb_sound hb]

/-- The generator at `holiday_demo_terms` with the period-2 holiday produces
exactly `holiday_demo_schedule`. -/
theorem holiday_demo_schedule_eq :
    generate_amortization_schedule holiday_demo_terms [] holiday_demo_ranges =
      some holiday_demo_schedule := by
  have hb : (generate_amortization_schedule holiday_demo_terms []
      holiday_demo_ranges).map
      (fun s => schedule_eqb s holiday_demo_schedule) = some true := by
    with_unfolding_all decide
  cases hgen : generate_amortization_schedule holiday_demo_terms []
      holiday_demo_ranges with
  | none => rw [hgen] at hb; simp at hb
  | some s =>
      rw [hgen] at hb
      simp only [Option.map_some', Option.some.injEq] at hb
      rw [schedule_eqb_sound hb]

/-- The running balance invariant of the loop: starting from a balance
bounded by B whose quantized per-period interest fits under the regular
payment, with a non-negative rate and non-negative extra payments, every
emitted balance is non-negative and the balance sequence headed by the
entering balance is non-increasing. -/
theorem schedule_loop_balance_invariant (t : LoanTerms) (rp : ℚ)
    (eps : List (ℕ × ℚ)) (phs : List (ℕ × ℕ)) (B : ℚ)
    (hr : 0 ≤ period_rate t)
    (he : ∀ n, 0 ≤ extra_payment_map eps n)
    (hpay : round2 (B * period_rate t) ≤ rp) :
    ∀ (fuel num : ℕ) (b : ℚ) (d : Date) (s : List ScheduleEntry),
      b ≤ B → schedule_loop t rp eps phs fuel num b d [] = some s →
      s.Forall nonneg_balance ∧
      List.Chain' step_down (b :: s.map ScheduleEntry.balance) := by
  intro fuel
  induction fuel with
  | zero =>
      intro num b d s hbB hs
      rw [schedule_loop_zero] at hs
      cases hs
      exact ⟨trivial, List.chain'_singleton b⟩
  | succ fuel ih =>
      intro num b d s hbB hs
      by_cases hb : b ≤ 0
      · rw [schedule_loop_stop t rp eps phs _ num b d [] hb] at hs
        cases hs
        exact ⟨trivial, List.chain'_singleton b⟩
      · have hb0 : 0 < b := not_le.mp hb
        by_cases hhol : holiday_periods phs num
        · cases hd : get_next_payment_date t.payment_frequency d with
          | none =>
              rw [schedule_loop_holiday_none t rp eps phs fuel num b d []
                hb hhol hd] at hs
              cases hs
          | some d2 =>
              obtain ⟨rest, hrec, hcons⟩ :=
                schedule_loop_cons_holiday hb hhol hd hs
              subst hcons
              obtain ⟨hF, hC⟩ := ih (num + 1) b d2 rest hbB hrec
              refine ⟨?_, ?_⟩
              · rw [List.forall_cons]
                exact ⟨hb0.le, hF⟩
              · rw [List.map_cons, List.chain'_cons]
                exact ⟨le_refl b, hC⟩
        · have hhol2 : holiday_periods phs num = false := by simpa using hhol
          cases hd : get_next_payment_date t.payment_frequency d with
          | none =>
              rw [schedule_loop_step_none t rp eps phs fuel num b d []
                hb hhol2 hd] at hs
              cases hs
          | some d2 =>
              obtain ⟨rest, hrec, hcons⟩ :=
                schedule_loop_cons_step hb hhol2 hd hs
              subst hcons
              obtain ⟨hnn, hle⟩ := schedule_step_balance_bounds t rp eps num
                b B d hb0 hbB hr (he num) hpay
              obtain ⟨hF, hC⟩ := ih (num + 1) _ d2 rest (le_trans hle hbB) hrec
              refine ⟨?_, ?_⟩
              · rw [List.forall_cons]
                exact ⟨hnn, hF⟩
              · rw [List.map_cons, List.chain'_cons]
                exact ⟨hle, hC⟩

/-- C2. For every well-formed input (non-negative annual rate, a positive
number of payments, non-negative extra-payment amounts) whose schedule the
generator returns, every entry's remaining balance is non-negative and the
balance sequence headed by the entering net principal is monotonically
non-increasing — in particular each non-holiday entry's balance is at most
the balance before that period, and holiday entries repeat it unchanged. -/
theorem c2_balance_invariants (t : LoanTerms) (eps : List (ℕ × ℚ))
    (phs : List (ℕ × ℕ)) (s : List ScheduleEntry)
    (hrate : 0 ≤ t.annual_rate) (hn : 0 < total_payments t)
    (heps : eps.Forall (fun p => 0 ≤ p.2))
    (hs : generate_amortization_schedule t eps phs = some s) :
    s.Forall nonneg_balance ∧
    List.Chain' step_down (net_principal t :: s.map ScheduleEntry.balance) := by
  unfold generate_amortization_schedule at hs
  by_cases hP : net_principal t ≤ 0
  · rw [schedule_loop_stop t (calculate_payment t) eps phs
      (total_payments t) 1 (net_principal t) t.start_date [] hP] at hs
    cases hs
    exact ⟨trivial, List.chain'_singleton _⟩
  · push_neg at hP
    have hr := period_rate_nonneg t hrate
    exact schedule_loop_balance_invariant t (calculate_payment t) eps phs
      (net_principal t) hr (extra_map_nonneg heps)
      (round2_interest_le_payment t hP hn hr)
      (total_payments t) 1 (net_principal t) t.start_date s le_rfl hs

/-- C2 (witness). The invariant instantiated at the 3-period demo loan. -/
theorem c2_witness :
    demo_schedule.Forall nonneg_balance ∧
    List.Chain' step_down
      (net_principal demo_terms ::
        demo_schedule.map ScheduleEntry.balance) :=
  c2_balance_invariants demo_terms [] [] demo_schedule
    (by norm_num [demo_terms]) (by decide) trivial demo_schedule_eq

/-- Every entry emitted by the loop, except possibly the last, still
carries a positive balance: the loop checks the balance before emitting and
breaks as soon as it is non-positive. -/
theorem schedule_loop_chain_pos (t : LoanTerms) (rp : ℚ)
    (eps : List (ℕ × ℚ)) (phs : List (ℕ × ℕ)) :
    ∀ (fuel num : ℕ) (b : ℚ) (d : Date) (s : List ScheduleEntry),
      schedule_loop t rp eps phs fuel num b d [] = some s →
      List.Chain' pos_before_next s := by
  intro fuel
  induction fuel with
  | zero =>
      intro num b d s hs
      rw [schedule_loop_zero] at hs
      cases hs
      trivial
  | succ fuel ih =>
      intro num b d s hs
      by_cases hb : b ≤ 0
      · rw [schedule_loop_stop t rp eps phs _ num b d [] hb] at hs
        cases hs
        trivial
      · have hb0 : 0 < b := not_le.mp hb
        by_cases hhol : holiday_periods phs num
        · cases hd : get_next_payment_date t.payment_frequency d with
          | none =>
              rw [schedule_loop_holiday_none t rp eps phs fuel num b d []
                hb hhol hd] at hs
              cases hs
          | some d2 =>
              obtain ⟨rest, hrec, hcons⟩ :=
                schedule_loop_cons_holiday hb hhol hd hs
              subst hcons
              rw [List.chain'_cons']
              exact ⟨fun y _ => hb0, ih (num + 1) b d2 rest hrec⟩
        · have hhol2 : holiday_periods phs num = false := by simpa using hhol
          cases hd : get_next_payment_date t.payment_frequency d with
          | none =>
              rw [schedule_loop_step_none t rp eps phs fuel num b d []
                hb hhol2 hd] at hs
              cases hs
          | some d2 =>
              obtain ⟨rest, hrec, hcons⟩ :=
                schedule_loop_cons_step hb hhol2 hd hs
              subst hcons
              rw [List.chain'_cons']
              refine ⟨?_, ih (num + 1) _ d2 rest hrec⟩
              intro y hy
              have hne : rest ≠ [] := by
                intro hnil
                subst hnil
                simp at hy
              exact schedule_loop_pos_of_ne_nil hrec hne

/-- C7. For every input whose schedule the generator returns: every entry
except possibly the last carries a positive balance (so no entry ever
follows an entry whose balance field is 0), and an entry is emitted at all
only if the balance entering the simulation was positive. -/
theorem c7_stops_after_payoff (t : LoanTerms) (eps : List (ℕ × ℚ))
    (phs : List (ℕ × ℕ)) (s : List ScheduleEntry)
    (hs : generate_amortization_schedule t eps phs = some s) :
    List.Chain' pos_before_next s ∧ (s ≠ [] → 0 < net_principal t) := by
  unfold generate_amortization_schedule at hs
  exact ⟨schedule_loop_chain_pos t (calculate_payment t) eps phs
      (total_payments t) 1 (net_principal t) t.start_date s hs,
    fun hne => schedule_loop_pos_of_ne_nil hs hne⟩

/-- C7 (witness). The stopping property instantiated at the demo loan. -/
theorem c7_witness :
    List.Chain' pos_before_next demo_schedule ∧
    (demo_schedule ≠ [] → 0 < net_principal demo_terms) :=
  c7_stops_after_payoff demo_terms [] [] demo_schedule demo_schedule_eq

/-- Holiday rows never touch the money: every holiday entry has zero
payment, principal, interest and extra payment, the holiday flag of every
entry agrees with membership in the holiday set, and a holiday entry always
repeats the balance of the entry before it (with the entering balance as
the base case, carried by the pseudo-entry a). -/
theorem schedule_loop_holiday_frame (t : LoanTerms) (rp : ℚ)
    (eps : List (ℕ × ℚ)) (phs : List (ℕ × ℕ)) :
    ∀ (fuel num : ℕ) (b : ℚ) (d : Date) (s : List ScheduleEntry)
      (a : ScheduleEntry), a.balance = b →
      schedule_loop t rp eps phs fuel num b d [] = some s →
      s.Forall holiday_zeroed ∧ s.Forall (holiday_flag_matches phs) ∧
      List.Chain holiday_keeps_balance a s := by
  intro fuel
  induction fuel with
  | zero =>
      intro num b d s a ha hs
      rw [schedule_loop_zero] at hs
      cases hs
      exact ⟨trivial, trivial, List.Chain.nil⟩
  | succ fuel ih =>
      intro num b d s a ha hs
      by_cases hb : b ≤ 0
      · rw [schedule_loop_stop t rp eps phs _ num b d [] hb] at hs
        cases hs
        exact ⟨trivial, trivial, List.Chain.nil⟩
      · by_cases hhol : holiday_periods phs num
        · cases hd : get_next_payment_date t.payment_frequency d with
          | none =>
              rw [schedule_loop_holiday_none t rp eps phs fuel num b d []
                hb hhol hd] at hs
              cases hs
          | some d2 =>
              obtain ⟨rest, hrec, hcons⟩ :=
                schedule_loop_cons_holiday hb hhol hd hs
              subst hcons
              obtain ⟨hF1, hF2, hCh⟩ :=
                ih (num + 1) b d2 rest ⟨num, d, 0, 0, 0, 0, b, true⟩ rfl hrec
              refine ⟨?_, ?_, ?_⟩
              · rw [List.forall_cons]
                exact ⟨fun _ => ⟨rfl, rfl, rfl, rfl⟩, hF1⟩
              · rw [List.forall_cons]
                exact ⟨hhol.symm, hF2⟩
              · exact List.Chain.cons (fun _ => ha.symm) hCh
        · have hhol2 : holiday_periods phs num = false := by simpa using hhol
          cases hd : get_next_payment_date t.payment_frequency d with
          | none =>
              rw [schedule_loop_step_none t rp eps phs fuel num b d []
                hb hhol2 hd] at hs
              cases hs
          | some d2 =>
              obtain ⟨rest, hrec, hcons⟩ :=
                schedule_loop_cons_step hb hhol2 hd hs
              subst hcons
              obtain ⟨hF1, hF2, hCh⟩ := ih (num + 1)
                (schedule_step t rp eps num b d).balance d2 rest
                (schedule_step t rp eps num b d) rfl hrec
              refine ⟨?_, ?_, ?_⟩
              · rw [List.forall_cons]
                exact ⟨fun h => Bool.noConfusion h, hF1⟩
              · rw [List.forall_cons]
                exact ⟨hhol2.symm, hF2⟩
              · exact List.Chain.cons (fun h => Bool.noConfusion h) hCh

/-- C8. For every input whose schedule the generator returns: every holiday
entry has payment = principal = interest = extra_payment = 0; an entry is
flagged as a holiday exactly when its payment number is in the precomputed
holiday set; and every holiday entry carries the balance of the entry
before it (the net principal for the first entry) forward unchanged — a
holiday period never changes the remaining balance. -/
theorem c8_holiday_frame (t : LoanTerms) (eps : List (ℕ × ℚ))
    (phs : List (ℕ × ℕ)) (s : List ScheduleEntry)
    (hs : generate_amortization_schedule t eps phs = some s) :
    s.Forall holiday_zeroed ∧ s.Forall (holiday_flag_matches phs) ∧
    List.Chain holiday_keeps_balance (init_entry t) s := by
  unfold generate_amortization_schedule at hs
  exact schedule_loop_holiday_frame t (calculate_payment t) eps phs
    (total_payments t) 1 (net_principal t) t.start_date s (init_entry t)
    rfl hs

/-- C8 (witness). The holiday frame property instantiated at the demo loan
with a payment holiday at period 2. -/
theorem c8_witness :
    holiday_demo_schedule.Forall holiday_zeroed ∧
    holiday_demo_schedule.Forall (holiday_flag_matches holiday_demo_ranges) ∧
    List.Chain holiday_keeps_balance (init_entry holiday_demo_terms)
      holiday_demo_schedule :=
  c8_holiday_frame holiday_demo_terms [] holiday_demo_ranges
    holiday_demo_schedule holiday_demo_schedule_eq

/-! ### Claim C6: no ScheduleTooLarge cap exists -/

/-- Every month has at least one day. -/
theorem one_le_daysInMonth (y : ℤ) (m : ℕ) : 1 ≤ daysInMonth y m := by
  unfold daysInMonth
  split_ifs <;> norm_num

/-- Monthly advancement from day 1 always succeeds and stays on day 1. -/
theorem monthly_next_day_one (d : Date) (hd : d.day = 1) :
    ∃ d2, get_next_payment_date PaymentFrequency.monthly d = some d2 ∧
      d2.day = 1 := by
  unfold get_next_payment_date
  by_cases hm : d.month = 12
  · rw [if_pos hm]
    exact ⟨⟨d.year + 1, 1, d.day⟩, rfl, hd⟩
  · rw [if_neg hm, if_pos (hd ▸ one_le_daysInMonth d.year (d.month + 1))]
    exact ⟨⟨d.year, d.month + 1, d.day⟩, rfl, hd⟩

/-- With a zero period rate, no extras and no holidays, a regular payment
of c > 0 retires a balance of k·c in exactly k monthly periods (starting
from day 1 of a month, so the date advance never fails): the loop emits one
row per period, k rows in total. -/
theorem schedule_loop_zero_rate_run (t : LoanTerms) (c : ℚ) (hc : 0 < c)
    (hper : period_rate t = 0)
    (hfreq : t.payment_frequency = PaymentFrequency.monthly) :
    ∀ (k num : ℕ) (d : Date), d.day = 1 →
      ∃ s, schedule_loop t c [] [] k num ((k : ℚ) * c) d [] = some s ∧
        s.length = k := by
  intro k
  induction k with
  | zero =>
      intro num d hd
      exact ⟨[], schedule_loop_zero t c [] [] num (((0 : ℕ) : ℚ) * c) d [],
        rfl⟩
  | succ k ih =>
      intro num d hd
      have hcast : (((k + 1 : ℕ)) : ℚ) = (k : ℚ) + 1 := by push_cast; ring
      have hk : (0 : ℚ) ≤ (k : ℚ) := Nat.cast_nonneg k
      have hb : ¬ ((k : ℚ) + 1) * c ≤ 0 := by
        push_neg
        positivity
      obtain ⟨d2, hd2, hday2⟩ := monthly_next_day_one d hd
      have hbal : (schedule_step t c [] num (((k : ℚ) + 1) * c) d).balance =
          (k : ℚ) * c := by
        unfold schedule_step
        dsimp only
        rw [hper, mul_zero, round2_zero]
        have hex : extra_payment_map [] num = 0 := rfl
        rw [hex]
        have hcond : ¬ (c - 0 + 0 > ((k : ℚ) + 1) * c) := by
          push_neg
          nlinarith
        rw [if_neg hcond]
        dsimp only
        have harith : ((k : ℚ) + 1) * c - (c - 0 + 0) = (k : ℚ) * c := by ring
        rw [harith]
        exact max_eq_left (by positivity)
      obtain ⟨s, hs, hlen⟩ := ih (num + 1) d2 hday2
      refine ⟨schedule_step t c [] num (((k : ℚ) + 1) * c) d :: s, ?_,
        by simp [hlen]⟩
      rw [hcast]
      rw [schedule_loop_step t c [] [] k num (((k : ℚ) + 1) * c) d [] d2 hb
        rfl (by rw [hfreq]; exact hd2)]
      rw [schedule_loop_acc_append, hbal, hs]
      simp

/-- C6 (counterexample). The input big_case implies 1201 periods — beyond
the claimed safety cap of 1200 — yet the engine performs no rejection: it
simulates all 1201 periods and returns a full schedule, with no
ScheduleTooLarge error anywhere. -/
theorem c6_counterexample :
    (generate_amortization_schedule big_case [] []).map List.length =
      some 1201 ∧ 1200 < total_payments big_case := by
  constructor
  · have hper : period_rate big_case = 0 := by
      norm_num [period_rate, big_case, payments_per_year]
    have hrp : calculate_payment big_case = 100 := by
      unfold calculate_payment
      rw [if_pos hper]
      norm_num [net_principal, big_case, total_payments]
    obtain ⟨s, hs, hlen⟩ := schedule_loop_zero_rate_run big_case 100
      (by norm_num) hper rfl 1201 1 ⟨2024, 1, 1⟩ rfl
    unfold generate_amortization_schedule
    rw [hrp]
    have hnet : net_principal big_case = ((1201 : ℕ) : ℚ) * 100 := by
      norm_num [net_principal, big_case]
    rw [hnet]
    show Option.map List.length
        (schedule_loop big_case 100 [] [] 1201 1 (((1201 : ℕ) : ℚ) * 100)
          ⟨2024, 1, 1⟩ []) = some 1201
    rw [hs]
    simp [hlen]
  · decide

/-- For a non-monthly frequency the date advance is total. -/
theorem get_next_some_of_not_monthly (f : PaymentFrequency)
    (hf : f ≠ PaymentFrequency.monthly) (d : Date) :
    ∃ d2, get_next_payment_date f d = some d2 := by
  cases f with
  | monthly => exact absurd rfl hf
  | biWeekly => exact ⟨d.addDays 14, rfl⟩
  | weekly => exact ⟨d.addDays 7, rfl⟩

/-- For a non-monthly frequency the loop always succeeds and emits at most
one row per remaining payment number. -/
theorem schedule_loop_total_of_not_monthly (t : LoanTerms) (rp : ℚ)
    (eps : List (ℕ × ℚ)) (phs : List (ℕ × ℕ))
    (hf : t.payment_frequency ≠ PaymentFrequency.monthly) :
    ∀ (fuel num : ℕ) (b : ℚ) (d : Date),
      ∃ s, schedule_loop t rp eps phs fuel num b d [] = some s ∧
        s.length ≤ fuel := by
  intro fuel
  induction fuel with
  | zero =>
      intro num b d
      exact ⟨[], schedule_loop_zero t rp eps phs num b d [], by simp⟩
  | succ fuel ih =>
      intro num b d
      by_cases hb : b ≤ 0
      · exact ⟨[], schedule_loop_stop t rp eps phs _ num b d [] hb, by simp⟩
      · obtain ⟨d2, hd2⟩ := get_next_some_of_not_monthly _ hf d
        by_cases hhol : holiday_periods phs num
        · obtain ⟨s, hs, hlen⟩ := ih (num + 1) b d2
          refine ⟨⟨num, d, 0, 0, 0, 0, b, true⟩ :: s, ?_, ?_⟩
          · rw [schedule_loop_holiday_step t rp eps phs fuel num b d [] d2
              hb hhol hd2, schedule_loop_acc_append, hs]
            simp
          · simpa using Nat.succ_le_succ hlen
        · have hhol2 : holiday_periods phs num = false := by simpa using hhol
          obtain ⟨s, hs, hlen⟩ := ih (num + 1)
            (schedule_step t rp eps num b d).balance d2
          refine ⟨schedule_step t rp eps num b d :: s, ?_, ?_⟩
          · rw [schedule_loop_step t rp eps phs fuel num b d [] d2
              hb hhol2 hd2, schedule_loop_acc_append, hs]
            simp
          · simpa using Nat.succ_le_succ hlen

/-- C6 (amended). The engine imposes no safety cap at all: whatever the
derived number of periods, no ScheduleTooLarge error exists and the
simulation runs to completion.  For any input with a total date advance
(non-monthly frequency, since only the monthly branch can raise) the
generator returns a schedule of at most total_payments rows, however large
total_payments is. -/
theorem c6_no_cap (t : LoanTerms) (eps : List (ℕ × ℚ))
    (phs : List (ℕ × ℕ))
    (hf : t.payment_frequency ≠ PaymentFrequency.monthly) :
    (generate_amortization_schedule t eps phs).isSome = true ∧
    ((generate_amortization_schedule t eps phs).getD []).length ≤
      total_payments t := by
  obtain ⟨s, hs, hlen⟩ := schedule_loop_total_of_not_monthly t
    (calculate_payment t) eps phs hf (total_payments t) 1 (net_principal t)
    t.start_date
  unfold generate_amortization_schedule
  rw [hs]
  exact ⟨rfl, by simpa using hlen⟩

/-- C6 (witness). The no-cap theorem instantiated at the weekly demo loan
(13 derived payments). -/
theorem c6_witness :
    (generate_amortization_schedule weekly_demo [] []).isSome = true ∧
    ((generate_amortization_schedule weekly_demo [] []).getD []).length ≤
      total_payments weekly_demo :=
  c6_no_cap weekly_demo [] [] (by decide)

/-! ### Claims C9, C10: the affordability analyzer -/

/-- Classification of the nested comfort-level conditional. -/
theorem comfort_level_iff (dti : ℚ) :
    ((if dti ≤ 28 then "comfortable" else if dti ≤ 36 then "manageable"
        else if dti ≤ 43 then "stretched" else "risky") = "comfortable" ↔
      dti ≤ 28) ∧
    ((if dti ≤ 28 then "comfortable" else if dti ≤ 36 then "manageable"
        else if dti ≤ 43 then "stretched" else "risky") = "manageable" ↔
      (28 < dti ∧ dti ≤ 36)) ∧
    ((if dti ≤ 28 then "comfortable" else if dti ≤ 36 then "manageable"
        else if dti ≤ 43 then "stretched" else "risky") = "stretched" ↔
      (36 < dti ∧ dti ≤ 43)) ∧
    ((if dti ≤ 28 then "comfortable" else if dti ≤ 36 then "manageable"
        else if dti ≤ 43 then "stretched" else "risky") = "risky" ↔
      43 < dti) := by
  by_cases h1 : dti ≤ 28
  · rw [if_pos h1]
    exact ⟨⟨fun _ => h1, fun _ => rfl⟩,
      ⟨fun hx => absurd hx (by decide), fun hx => absurd h1 (not_le.mpr hx.1)⟩,
      ⟨fun hx => absurd hx (by decide),
        fun hx => absurd h1 (not_le.mpr (by linarith [hx.1]))⟩,
      ⟨fun hx => absurd hx (by decide),
        fun hx => absurd h1 (not_le.mpr (by linarith))⟩⟩
  · rw [if_neg h1]
    by_cases h2 : dti ≤ 36
    · rw [if_pos h2]
      exact ⟨⟨fun hx => absurd hx (by decide), fun hx => absurd hx h1⟩,
        ⟨fun _ => ⟨not_le.mp h1, h2⟩, fun _ => rfl⟩,
        ⟨fun hx => absurd hx (by decide), fun hx => absurd h2 (not_le.mpr hx.1)⟩,
        ⟨fun hx => absurd hx (by decide),
          fun hx => absurd h2 (not_le.mpr (by linarith))⟩⟩
    · rw [if_neg h2]
      by_cases h3 : dti ≤ 43
      · rw [if_pos h3]
        exact ⟨⟨fun hx => absurd hx (by decide), fun hx => absurd hx h1⟩,
          ⟨fun hx => absurd hx (by decide), fun hx => absurd hx.2 h2⟩,
          ⟨fun _ => ⟨not_le.mp h2, h3⟩, fun _ => rfl⟩,
          ⟨fun hx => absurd hx (by decide), fun hx => absurd h3 (not_le.mpr hx)⟩⟩
      · rw [if_neg h3]
        exact ⟨⟨fun hx => absurd hx (by decide),
            fun hx => absurd (le_trans hx (by norm_num)) h3⟩,
          ⟨fun hx => absurd hx (by decide),
            fun hx => absurd (le_trans hx.2 (by norm_num)) h3⟩,
          ⟨fun hx => absurd hx (by decide), fun hx => absurd hx.2 h3⟩,
          ⟨fun _ => not_le.mp h3, fun _ => rfl⟩⟩

/-- The fields of the affordability record, read back from the definition. -/
theorem affordability_fields (t : LoanTerms) (income : ℚ) :
    (calculate_affordability t income).debt_to_income_percent =
      (if income > 0 then
        (calculate_affordability t income).monthly_payment_equivalent /
          income * 100 else 0) ∧
    (calculate_affordability t income).comfort_level =
      (if (calculate_affordability t income).debt_to_income_percent ≤ 28
        then "comfortable"
        else if (calculate_affordability t income).debt_to_income_percent ≤ 36
        then "manageable"
        else if (calculate_affordability t income).debt_to_income_percent ≤ 43
        then "stretched" else "risky") ∧
    (calculate_affordability t income).is_affordable =
      decide ((calculate_affordability t income).debt_to_income_percent ≤ 43) ∧
    (calculate_affordability t income).recommended_max_payment =
      income * (28 / 100) := by
  unfold calculate_affordability
  dsimp only
  exact ⟨rfl, rfl, rfl, rfl⟩

/-- C9. For positive monthly income: the monthly payment equivalent is the
regular payment scaled by 26/12 for bi-weekly, 52/12 for weekly, and
unchanged for monthly; the debt-to-income percentage is monthly equivalent
divided by income times 100; the comfort level is comfortable iff that
percentage is ≤ 28, manageable iff it is in (28, 36], stretched iff it is
in (36, 43], risky iff it exceeds 43; is_affordable holds iff it is ≤ 43;
and the recommended maximum payment is income × 0.28. -/
theorem c9_affordability (t : LoanTerms) (income : ℚ) (hpos : 0 < income) :
    (t.payment_frequency = PaymentFrequency.monthly →
      (calculate_affordability t income).monthly_payment_equivalent =
        calculate_payment t) ∧
    (t.payment_frequency = PaymentFrequency.biWeekly →
      (calculate_affordability t income).monthly_payment_equivalent =
        calculate_payment t * 26 / 12) ∧
    (t.payment_frequency = PaymentFrequency.weekly →
      (calculate_affordability t income).monthly_payment_equivalent =
        calculate_payment t * 52 / 12) ∧
    (calculate_affordability t income).debt_to_income_percent =
      (calculate_affordability t income).monthly_payment_equivalent /
        income * 100 ∧
    ((calculate_affordability t income).comfort_level = "comfortable" ↔
      (calculate_affordability t income).debt_to_income_percent ≤ 28) ∧
    ((calculate_affordability t income).comfort_level = "manageable" ↔
      (28 < (calculate_affordability t income).debt_to_income_percent ∧
        (calculate_affordability t income).debt_to_income_percent ≤ 36)) ∧
    ((calculate_affordability t income).comfort_level = "stretched" ↔
      (36 < (calculate_affordability t income).debt_to_income_percent ∧
        (calculate_affordability t income).debt_to_income_percent ≤ 43)) ∧
    ((calculate_affordability t income).comfort_level = "risky" ↔
      43 < (calculate_affordability t income).debt_to_income_percent) ∧
    ((calculate_affordability t income).is_affordable = true ↔
      (calculate_affordability t income).debt_to_income_percent ≤ 43) ∧
    (calculate_affordability t income).recommended_max_payment =
      income * (28 / 100) := by
  obtain ⟨hd, hc, ha, hr⟩ := affordability_fields t income
  rw [if_pos hpos] at hd
  obtain ⟨hc1, hc2, hc3, hc4⟩ :=
    comfort_level_iff ((calculate_affordability t income).debt_to_income_percent)
  rw [← hc] at hc1 hc2 hc3 hc4
  refine ⟨?_, ?_, ?_, hd, hc1, hc2, hc3, hc4, ?_, hr⟩
  · intro hf
    unfold calculate_affordability
    dsimp only
    rw [hf]
  · intro hf
    unfold calculate_affordability
    dsimp only
    rw [hf]
  · intro hf
    unfold calculate_affordability
    dsimp only
    rw [hf]
  · rw [ha]
    exact decide_eq_true_iff

/-- C9 (witness). The affordability formulas instantiated at the demo loan
and an income of 5000. -/
theorem c9_witness :
    (calculate_affordability demo_terms 5000).debt_to_income_percent =
      (calculate_affordability demo_terms 5000).monthly_payment_equivalent /
        5000 * 100 ∧
    ((calculate_affordability demo_terms 5000).is_affordable = true ↔
      (calculate_affordability demo_terms 5000).debt_to_income_percent ≤ 43) ∧
    (calculate_affordability demo_terms 5000).recommended_max_payment =
      5000 * (28 / 100) := by
  have h := c9_affordability demo_terms 5000 (by norm_num)
  exact ⟨h.2.2.2.1, h.2.2.2.2.2.2.2.2.1, h.2.2.2.2.2.2.2.2.2⟩

/-- C10. For non-positive monthly income the analyzer does not divide: the
debt-to-income percentage is defined to be 0, hence is_affordable is true
and the comfort level is comfortable, and the recommended maximum payment
is income × 0.28 (a non-positive value). -/
theorem c10_nonpos_income (t : LoanTerms) (income : ℚ) (hnp : income ≤ 0) :
    (calculate_affordability t income).debt_to_income_percent = 0 ∧
    (calculate_affordability t income).is_affordable = true ∧
    (calculate_affordability t income).comfort_level = "comfortable" ∧
    (calculate_affordability t income).recommended_max_payment =
      income * (28 / 100) := by
  obtain ⟨hd, hc, ha, hr⟩ := affordability_fields t income
  have hni : ¬ (income > 0) := not_lt.mpr hnp
  rw [if_neg hni] at hd
  refine ⟨hd, ?_, ?_, hr⟩
  · rw [ha, hd]
    norm_num
  · rw [hc, hd]
    norm_num

/-- C10 (witness). The non-positive-income behavior instantiated at the
demo loan and an income of −100. -/
theorem c10_witness :
    (calculate_affordability demo_terms (-100)).debt_to_income_percent = 0 ∧
    (calculate_affordability demo_terms (-100)).is_affordable = true ∧
    (calculate_affordability demo_terms (-100)).comfort_level =
      "comfortable" ∧
    (calculate_affordability demo_terms (-100)).recommended_max_payment =
      (-100) * (28 / 100) :=
  c10_nonpos_income demo_terms (-100) (by norm_num)
